import Mathlib

/-
  Shallow embedding of the PrimeNexus chat backend core:
  - the Conversation Store service layer (database/service.py),
  - the Ollama streaming client (llm_client.py),
  - the streaming relay route (main.py, stream_chat_response / generate_response),
  - the provider abstraction (agents/llm_provider.py).
  Machine state (database rows, HTTP transports) is modelled explicitly;
  timestamps are logical clock values (Nat) passed to each mutating call.
-/

namespace PrimeNexus

/-- A JSON-ish metadata value as stored in a message metadata bag. -/
inductive MetaVal
  | str (v : String)
  | bool (v : Bool)
deriving DecidableEq, Repr

/-- A message metadata bag (Python dict of string keys). -/
abbrev Metadata := List (String × MetaVal)

/-- One row of the chat_messages table (models.ChatMessage). -/
structure ChatMessage where
  role : String
  content : String
  message_metadata : Metadata
  created_at : Nat
deriving DecidableEq, Repr

/-- One row of the chat_threads table together with its owned messages
    (models.ChatThread; messages kept nested in row-insertion order). -/
structure ChatThread where
  user_id : Nat
  thread_id : String
  title : String
  created_at : Nat
  updated_at : Nat
  messages : List ChatMessage
deriving DecidableEq, Repr

/-- The conversation store: the chat_threads table with nested messages. -/
structure Store where
  threads : List ChatThread
deriving DecidableEq, Repr

/-- Predicate matching a thread row by (user_id, thread_id), as in the
    WHERE clause of ChatService.get_chat_thread. -/
def threadKey (uid : Nat) (tid : String) (th : ChatThread) : Bool :=
  th.user_id == uid && th.thread_id == tid

/-- Replace the first thread row matching (uid, tid) by applying f. -/
def updateThread (uid : Nat) (tid : String) (f : ChatThread → ChatThread) :
    List ChatThread → List ChatThread
  | [] => []
  | th :: rest =>
    if threadKey uid tid th then f th :: rest
    else th :: updateThread uid tid f rest

namespace ChatService

/-- ChatService.get_chat_thread: select the thread by user_id and thread_id. -/
def get_chat_thread (s : Store) (uid : Nat) (tid : String) : Option ChatThread :=
  s.threads.find? (threadKey uid tid)

/-- ChatService.create_chat_message: look up the thread; if absent return None;
    otherwise insert the message row and set the thread updated_at to now. -/
def create_chat_message (s : Store) (uid : Nat) (tid : String)
    (role content : String) (metadata : Option Metadata) (now : Nat) :
    Option (ChatMessage × Store) :=
  match get_chat_thread s uid tid with
  | none => none
  | some _ =>
    let message : ChatMessage :=
      { role := role, content := content,
        message_metadata := metadata.getD [], created_at := now }
    some (message,
      ⟨updateThread uid tid
        (fun th => { th with messages := th.messages ++ [message], updated_at := now })
        s.threads⟩)

/-- ChatService.update_chat_thread_title: look up the thread; if absent return
    None; otherwise set the title and bump updated_at to now. -/
def update_chat_thread_title (s : Store) (uid : Nat) (tid : String)
    (title : String) (now : Nat) : Option (ChatThread × Store) :=
  match get_chat_thread s uid tid with
  | none => none
  | some th =>
    let th' := { th with title := title, updated_at := now }
    some (th',
      ⟨updateThread uid tid (fun t => { t with title := title, updated_at := now }) s.threads⟩)

/-- Stable insertion of a message into a list sorted by created_at. -/
def insertByCreated (m : ChatMessage) : List ChatMessage → List ChatMessage
  | [] => [m]
  | x :: xs =>
    if m.created_at < x.created_at then m :: x :: xs
    else x :: insertByCreated m xs

/-- ORDER BY created_at over a message list (stable sort). -/
def sortByCreated : List ChatMessage → List ChatMessage
  | [] => []
  | m :: ms => insertByCreated m (sortByCreated ms)

/-- ChatService.get_chat_messages: resolve the thread; if absent return the
    empty list; otherwise return its messages ordered by created_at, truncated
    to the limit when a truthy limit is given (Python if limit: treats both
    None and 0 as no limit). -/
def get_chat_messages (s : Store) (uid : Nat) (tid : String)
    (limit : Option Nat) : List ChatMessage :=
  match get_chat_thread s uid tid with
  | none => []
  | some th =>
    let sorted := sortByCreated th.messages
    match limit with
    | some l => if l = 0 then sorted else sorted.take l
    | none => sorted

end ChatService

/-- The messages stored for a given (owner, thread) key, raw insertion order;
    empty when the thread does not exist. -/
def threadMessages (s : Store) (uid : Nat) (tid : String) : List ChatMessage :=
  ((ChatService.get_chat_thread s uid tid).map ChatThread.messages).getD []

/-- Left-to-right concatenation of text fragments, the accumulator discipline
    of full_response += chunk and of "".join. -/
def concatFrags : List String → String
  | [] => ""
  | s :: rest => s ++ concatFrags rest

/-- Python str.strip(): drop whitespace from both ends of the text. -/
def pyStrip (s : String) : String :=
  ⟨(((s.data.dropWhile Char.isWhitespace).reverse).dropWhile Char.isWhitespace).reverse⟩

namespace llm_client

/-- One line of the framed streaming response body, after the json.loads
    attempt in OllamaClient.stream_chat: an empty line (skipped), a line that
    fails to decode (skipped), or a decoded frame carrying an optional
    message.content field and a done flag. -/
inductive OllamaLine
  | emptyLine
  | malformed
  | frame (content : Option String) (done : Bool)
deriving DecidableEq, Repr

/-- The chunks yielded by OllamaClient.stream_chat over a delivered line
    sequence: empty and malformed lines are skipped, a frame with truthy
    message.content is yielded, and a frame with done set breaks the loop. -/
def stream_chat : List OllamaLine → List String
  | [] => []
  | .emptyLine :: rest => stream_chat rest
  | .malformed :: rest => stream_chat rest
  | .frame c d :: rest =>
    (match c with
     | some s => if s ≠ "" then [s] else []
     | none => []) ++ (if d then [] else stream_chat rest)

/-- Whether the line loop reaches a done frame (and so breaks before any
    later transport failure can surface). -/
def sawDone : List OllamaLine → Bool
  | [] => false
  | .frame _ d :: rest => if d then true else sawDone rest
  | _ :: rest => sawDone rest

/-- One streaming interaction with the backend transport: the decoded lines
    it delivers, and an error raised by the transport after those lines when
    the loop has not already broken at a done frame (connection refused with
    no lines, or a mid-stream drop). -/
structure Transport where
  lines : List OllamaLine
  errAfter : Option String
deriving DecidableEq, Repr

/-- What a consumer of OllamaClient.stream_chat observes on a transport:
    the yielded fragments, and the exception (if any) that propagates after
    they were delivered. -/
def streamOutcome (t : Transport) : List String × Option String :=
  (stream_chat t.lines, if sawDone t.lines then none else t.errAfter)

/-- OllamaClient.chat_completion on a successful non-streaming response body:
    data.get("message", \x7b\x7d).get("content", "").strip(). -/
def chat_completion (message_content : Option String) : String :=
  pyStrip (message_content.getD "")

/-- The generation backend behaviour underlying one request, for comparing
    the streaming and batch modes: the generated text as the ordered pieces
    the backend chunks it into. In streaming mode Ollama sends one frame per
    piece followed by a final done frame; in batch mode it sends the whole
    concatenation as message.content. -/
structure BackendBehavior where
  pieces : List String
deriving DecidableEq, Repr

/-- The streaming-mode line sequence the backend produces for a behaviour. -/
def streamLines (b : BackendBehavior) : List OllamaLine :=
  b.pieces.map (fun s => OllamaLine.frame (some s) false) ++ [OllamaLine.frame (some "") true]

/-- Concatenation, in emitted order, of the fragments stream_chat yields. -/
def streamedText (b : BackendBehavior) : String :=
  concatFrags (stream_chat (streamLines b))

/-- The text chat_completion returns for the same behaviour in batch mode. -/
def batchText (b : BackendBehavior) : String :=
  chat_completion (some (concatFrags b.pieces))

end llm_client

namespace relay

/-- One server-sent event pushed to the caller by generate_response:
    an incremental fragment record, the final done record with its saved
    flag, or the terminal error record. -/
inductive Event
  | chunk (content : String)
  | done (saved : Bool)
  | streamError (msg : String)
deriving DecidableEq, Repr

/-- Whether an event is a terminal record (done flag set in the JSON). -/
def isTerminal : Event → Bool
  | .chunk _ => false
  | .done _ => true
  | .streamError _ => true

/-- The message metadata written on the partial-save path. -/
def interruptedMetadata : Metadata :=
  [("error", MetaVal.str "Streaming interrupted"), ("partial", MetaVal.bool true)]

/-- Which store interactions raise inside generate_response: the save block
    of the success path, and the partial-save block of the error path. -/
structure SaveBehavior where
  successRaises : Bool
  errorRaises : Bool
deriving DecidableEq, Repr

/-- The generate_response generator of main.stream_chat_response, given the
    fragments the backend stream delivered and the exception (if any) it then
    raised: accumulates fragments into full_response while yielding a chunk
    event for each; on normal end of stream saves the accumulated text (when
    nonempty) in a fresh session and yields done with the saved flag; on an
    exception saves the nonempty partial text with interruption metadata
    (ignoring any failure of that save) and yields the error record.
    Returns the yielded events and the resulting store. -/
def generate_response (uid : Nat) (tid : String) (frags : List String)
    (err : Option String) (st : Store) (sb : SaveBehavior) (now : Nat) :
    List Event × Store :=
  let full_response := concatFrags frags
  let chunkEvents := frags.map Event.chunk
  match err with
  | none =>
    if full_response ≠ "" then
      if sb.successRaises then
        (chunkEvents ++ [Event.done false], st)
      else
        match ChatService.create_chat_message st uid tid "assistant" full_response
            (some []) now with
        | some (_, st') => (chunkEvents ++ [Event.done true], st')
        | none => (chunkEvents ++ [Event.done false], st)
    else
      (chunkEvents ++ [Event.done false], st)
  | some e =>
    if full_response ≠ "" then
      if sb.errorRaises then
        (chunkEvents ++ [Event.streamError e], st)
      else
        match ChatService.create_chat_message st uid tid "assistant" full_response
            (some interruptedMetadata) now with
        | some (_, st') => (chunkEvents ++ [Event.streamError e], st')
        | none => (chunkEvents ++ [Event.streamError e], st)
    else
      (chunkEvents ++ [Event.streamError e], st)

/-- Result of one invocation of the streaming route. -/
inductive TurnResult
  | threadNotFound
  | streamed (events : List Event) (st : Store)
deriving DecidableEq, Repr

/-- The stream_chat_response route handler: verify the thread exists (404
    otherwise), durably save the user message, then stream the backend
    response through generate_response. nowUser and nowAsst are the clock
    values at the two store writes. -/
def stream_chat_response (st : Store) (uid : Nat) (tid : String)
    (content : String) (t : llm_client.Transport) (sb : SaveBehavior)
    (nowUser nowAsst : Nat) : TurnResult :=
  match ChatService.get_chat_thread st uid tid with
  | none => .threadNotFound
  | some _ =>
    match ChatService.create_chat_message st uid tid "user" content (some []) nowUser with
    | none => .threadNotFound
    | some (_, st1) =>
      let out := llm_client.streamOutcome t
      let res := generate_response uid tid out.1 out.2 st1 sb nowAsst
      .streamed res.1 res.2

/-- An observable step of one streaming turn, in program order: the history
    load, the committed user-message write, the opening of the backend
    stream, the receipt of one fragment from the backend, the push of one
    event to the caller, and a committed assistant-message write (with its
    content and whether it carries the interruption marker). -/
inductive Action
  | loadThread
  | commitUserMessage (content : String)
  | openStream
  | recvFragment (s : String)
  | pushEvent (e : Event)
  | commitAssistantMessage (content : String) (interrupted : Bool)
deriving DecidableEq, Repr

/-- Per-fragment steps of the streaming loop: each fragment is received,
    accumulated, and immediately pushed, before the next is awaited. -/
def fragmentActions : List String → List Action
  | [] => []
  | f :: fs => .recvFragment f :: .pushEvent (.chunk f) :: fragmentActions fs

/-- Steps after the fragment loop ends, mirroring generate_response: on
    normal end of stream an assistant commit (when the save succeeds) then
    the done push; on a stream exception a partial assistant commit (when
    that save succeeds) then the error push. -/
def tailActions (uid : Nat) (tid : String) (frags : List String)
    (err : Option String) (st1 : Store) (sb : SaveBehavior) (now : Nat) :
    List Action :=
  let full := concatFrags frags
  match err with
  | none =>
    (if full ≠ "" ∧ sb.successRaises = false ∧
        (ChatService.create_chat_message st1 uid tid "assistant" full (some []) now).isSome
     then [Action.commitAssistantMessage full false] else [])
    ++ [Action.pushEvent (Event.done
        (full ≠ "" ∧ sb.successRaises = false ∧
         (ChatService.create_chat_message st1 uid tid "assistant" full (some []) now).isSome : Bool))]
  | some e =>
    (if full ≠ "" ∧ sb.errorRaises = false ∧
        (ChatService.create_chat_message st1 uid tid "assistant" full
          (some interruptedMetadata) now).isSome
     then [Action.commitAssistantMessage full true] else [])
    ++ [Action.pushEvent (Event.streamError e)]

/-- The ordered action trace of one invocation of stream_chat_response, in
    the order the handler performs them. -/
def turnTrace (st : Store) (uid : Nat) (tid : String) (content : String)
    (t : llm_client.Transport) (sb : SaveBehavior) (nowUser nowAsst : Nat) :
    List Action :=
  match ChatService.get_chat_thread st uid tid with
  | none => [Action.loadThread]
  | some _ =>
    match ChatService.create_chat_message st uid tid "user" content (some []) nowUser with
    | none => [Action.loadThread]
    | some (_, st1) =>
      let out := llm_client.streamOutcome t
      Action.loadThread :: Action.commitUserMessage content :: Action.openStream ::
        (fragmentActions out.1 ++ tailActions uid tid out.1 out.2 st1 sb nowAsst)

/-- The fragment content carried by a backend-receive action, if any. -/
def recvContent : Action → Option String
  | .recvFragment s => some s
  | .loadThread => none
  | .commitUserMessage _ => none
  | .openStream => none
  | .pushEvent _ => none
  | .commitAssistantMessage _ _ => none

/-- The fragment content carried by a pushed incremental event, if any. -/
def pushedChunk : Action → Option String
  | .pushEvent (.chunk s) => some s
  | .pushEvent (.done _) => none
  | .pushEvent (.streamError _) => none
  | .loadThread => none
  | .commitUserMessage _ => none
  | .openStream => none
  | .recvFragment _ => none
  | .commitAssistantMessage _ _ => none

end relay

namespace llm_provider

/-- One role-tagged turn handed to the provider abstraction. -/
structure Turn where
  role : String
  content : String
deriving DecidableEq, Repr

/-- The prompt_parts list built by LLMClient._ollama_chat: each turn is
    rendered with its role label; turns with any other role are dropped. -/
def prompt_parts : List Turn → List String
  | [] => []
  | t :: ts =>
    (if t.role = "system" then ["System: " ++ t.content]
     else if t.role = "user" then ["User: " ++ t.content]
     else if t.role = "assistant" then ["Assistant: " ++ t.content]
     else []) ++ prompt_parts ts

/-- The single flattened prompt: prompt = "\n\n".join(prompt_parts). -/
def flattened_prompt (ts : List Turn) : String :=
  String.intercalate "\n\n" (prompt_parts ts)

/-- Rendering of one turn exactly as the spec words it: the role-labelled
    turn with a "System: ", "User: " or "Assistant: " label according to the
    turn's role. Stated from the spec for the refinement comparison. -/
def renderTurnSpec (t : Turn) : String :=
  (if t.role = "system" then "System: "
   else if t.role = "user" then "User: "
   else "Assistant: ") ++ t.content

/-- Outcome of one POST to an Ollama endpoint as _ollama_chat sees it: a
     2xx response whose decoded body optionally carries the text field, a
    non-2xx status (raise_for_status), or a connection-level failure. -/
inductive EndpointResult
  | ok (body : Option String)
  | httpStatus (code : Nat)
  | connectFail
deriving DecidableEq, Repr

/-- The error taxonomy _ollama_chat raises (each is a ValueError in the
    source, distinguished here by its message family). -/
inductive LLMError
  | modelNotFound (model : String)
  | apiError (code : Nat)
  | connectError
deriving DecidableEq, Repr

/-- LLMClient._ollama_chat after the prompt is built: POST /api/generate;
    on HTTP 404 raise the model-not-found hint, on another status an API
    error, on a connection failure a connect error; on success strip the
    response text, return it if nonempty, otherwise fall back to POST
    /api/chat and return its stripped content whatever it is. -/
def ollama_chat (genR chatR : EndpointResult) (model : String) :
    Except LLMError String :=
  match genR with
  | .connectFail => .error .connectError
  | .httpStatus c =>
    if c = 404 then .error (.modelNotFound model) else .error (.apiError c)
  | .ok body =>
    let result := pyStrip (body.getD "")
    if result ≠ "" then .ok result
    else
      match chatR with
      | .connectFail => .error .connectError
      | .httpStatus c =>
        if c = 404 then .error (.modelNotFound model) else .error (.apiError c)
      | .ok b2 => .ok (pyStrip (b2.getD ""))

end llm_provider

/-- A sample thread row used to instantiate the theorems on concrete data. -/
def sampleThread : ChatThread :=
  { user_id := 7, thread_id := "t1", title := "T", created_at := 0,
    updated_at := 0, messages := [] }

/-- A sample store holding the sample thread and nothing else. -/
def sampleStore : Store := ⟨[sampleThread]⟩

/-- A sample empty store (no threads at all). -/
def emptyStore : Store := ⟨[]⟩

/-- A sample transport that yields two fragments and then ends normally. -/
def okTransport : llm_client.Transport :=
  ⟨[.frame (some "4") false, .frame (some ".") false, .frame (some "") true], none⟩

/-- A sample transport that yields one fragment and then drops mid-stream. -/
def dropTransport : llm_client.Transport :=
  ⟨[.frame (some "4") false], some "boom"⟩

/-- A sample transport that fails before yielding anything. -/
def failTransport : llm_client.Transport := ⟨[], some "refused"⟩

/-- The save behaviour in which every store interaction succeeds. -/
def calmSaves : relay.SaveBehavior := ⟨false, false⟩

/-- The sample store after a successful assistant-message write at time 1. -/
def storeAfterMessage : Store :=
  ((ChatService.create_chat_message sampleStore 7 "t1" "assistant" "hello"
    (some []) 1).map Prod.snd).getD sampleStore

/-- The store after a subsequent title update at time 2: the most recent
    successful write is no longer a Message write. -/
def storeAfterTitle : Store :=
  ((ChatService.update_chat_thread_title storeAfterMessage 7 "t1" "New title"
    2).map Prod.snd).getD storeAfterMessage

section Lemmas

open ChatService relay llm_client

/-- If a thread matches the key, so does any update of it that keeps the
    user_id and thread_id fields. -/
theorem threadKey_update (uid : Nat) (tid : String) (th : ChatThread)
    (ms : List ChatMessage) (ti : String) (ua : Nat)
    (h : threadKey uid tid th = true) :
    threadKey uid tid { th with messages := ms, title := ti, updated_at := ua } = true := by
  simpa [threadKey] using h

/-- find? over updateThread: the first matching row is replaced, so a
    successful lookup finds the updated row, provided the update preserves
    the key. -/
theorem find?_updateThread (uid : Nat) (tid : String) (f : ChatThread → ChatThread)
    (hf : ∀ t, threadKey uid tid t = true → threadKey uid tid (f t) = true) :
    ∀ (l : List ChatThread) (th : ChatThread),
      l.find? (threadKey uid tid) = some th →
      (updateThread uid tid f l).find? (threadKey uid tid) = some (f th) := by
  intro l
  induction l with
  | nil => intro th h; simp at h
  | cons x xs ih =>
    intro th h
    by_cases hx : threadKey uid tid x = true
    · rw [List.find?_cons_of_pos _ hx] at h
      cases h
      rw [updateThread, if_pos hx, List.find?_cons_of_pos _ (hf _ hx)]
    · rw [List.find?_cons_of_neg _ (by simpa using hx)] at h
      rw [updateThread, if_neg hx, List.find?_cons_of_neg _ (by simpa using hx)]
      exact ih th h

/-- Shape of a successful create_chat_message: the returned message row and
    the updated store, spelled out. -/
theorem create_chat_message_eq (s : Store) (uid : Nat) (tid : String)
    (th : ChatThread) (role content : String) (md : Option Metadata) (now : Nat)
    (h : get_chat_thread s uid tid = some th) :
    create_chat_message s uid tid role content md now =
      some (⟨role, content, md.getD [], now⟩,
        ⟨updateThread uid tid
          (fun t => { t with
            messages := t.messages ++ [(⟨role, content, md.getD [], now⟩ : ChatMessage)],
            updated_at := now }) s.threads⟩) := by
  unfold create_chat_message
  rw [h]

/-- After a successful create_chat_message, looking the thread up again finds
    it with the new message appended and updated_at set to the write time. -/
theorem get_chat_thread_after_create (s : Store) (uid : Nat) (tid : String)
    (th : ChatThread) (role content : String) (md : Option Metadata) (now : Nat)
    (m : ChatMessage) (st' : Store)
    (h : get_chat_thread s uid tid = some th)
    (hc : create_chat_message s uid tid role content md now = some (m, st')) :
    m = ⟨role, content, md.getD [], now⟩ ∧
    get_chat_thread st' uid tid =
      some { th with messages := th.messages ++ [m], updated_at := now } := by
  rw [create_chat_message_eq s uid tid th role content md now h] at hc
  obtain ⟨hm, hst⟩ := Prod.mk.injEq .. ▸ Option.some.injEq .. ▸ hc
  subst hm
  refine ⟨rfl, ?_⟩
  subst hst
  unfold get_chat_thread at h ⊢
  exact find?_updateThread uid tid _
    (fun t ht => by simpa [threadKey] using ht) s.threads th h

/-- threadMessages after a successful create_chat_message: exactly the new
    message row is appended. -/
theorem threadMessages_after_create (s : Store) (uid : Nat) (tid : String)
    (th : ChatThread) (role content : String) (md : Option Metadata) (now : Nat)
    (m : ChatMessage) (st' : Store)
    (h : get_chat_thread s uid tid = some th)
    (hc : create_chat_message s uid tid role content md now = some (m, st')) :
    threadMessages st' uid tid = threadMessages s uid tid ++ [m] := by
  obtain ⟨hm, hget⟩ := get_chat_thread_after_create s uid tid th role content md now m st' h hc
  unfold threadMessages
  rw [h, hget]
  simp

/-- Every fragment OllamaClient.stream_chat yields is nonempty: the source
    only yields a chunk when its content is truthy. -/
theorem stream_chat_ne_empty :
    ∀ (lines : List OllamaLine) (s : String), s ∈ stream_chat lines → s ≠ "" := by
  intro lines
  induction lines with
  | nil => intro s h; simp [stream_chat] at h
  | cons x rest ih =>
    intro s h
    cases x with
    | emptyLine => exact ih s (by simpa [stream_chat] using h)
    | malformed => exact ih s (by simpa [stream_chat] using h)
    | frame c d =>
      simp only [stream_chat] at h
      rcases List.mem_append.mp h with h1 | h2
      · cases c with
        | none => simp at h1
        | some v =>
          by_cases hv : v = ""
          · simp [hv] at h1
          · obtain rfl : s = v := by simpa [hv] using h1
            exact hv
      · cases d with
        | true => simp at h2
        | false => exact ih s (by simpa using h2)

/-- A fragment list with a nonempty member concatenates to a nonempty text. -/
theorem concatFrags_ne_empty (f : String) (rest : List String) (hf : f ≠ "") :
    concatFrags (f :: rest) ≠ "" := by
  unfold concatFrags
  intro h
  apply hf
  have hdata : f.data ++ (concatFrags rest).data = ([] : List Char) := by
    have hc := congrArg String.data h
    simpa [String.data_append] using hc
  have hf0 : f.data = [] := (List.append_eq_nil.mp hdata).1
  exact String.ext (hf0.trans rfl)

/-- Concatenation distributes over fragment-list append. -/
theorem concatFrags_append (a b : List String) :
    concatFrags (a ++ b) = concatFrags a ++ concatFrags b := by
  induction a with
  | nil => simp [concatFrags, String.empty_append]
  | cons x xs ih => simp [concatFrags, ih, String.append_assoc]

/-- The fragments stream_chat yields for a backend behaviour concatenate to
    the full generated text, empty pieces contributing nothing. -/
theorem streamedText_eq_concat (b : llm_client.BackendBehavior) :
    llm_client.streamedText b = concatFrags b.pieces := by
  unfold llm_client.streamedText llm_client.streamLines
  obtain ⟨ps⟩ := b
  induction ps with
  | nil => rfl
  | cons p ps ih =>
    simp only [List.map_cons, List.cons_append]
    simp only [llm_client.stream_chat]
    by_cases hp : p = ""
    · subst hp
      simpa [concatFrags, String.empty_append] using ih
    · rw [if_pos hp, if_neg (by simp)]
      simpa [concatFrags, hp] using congrArg (fun s => p ++ s) ih

end Lemmas

section Claims

open ChatService relay llm_client llm_provider

/-- Claim C10: when (owner, threadHumanId) does not resolve to an existing
    thread, the message-listing operation returns an empty list rather than
    a NotFound error, and an existing thread with zero messages produces the
    same empty list, so a caller cannot distinguish the two cases through
    this operation. -/
theorem c10_listing_not_found_empty (s s' : Store) (uid : Nat) (tid : String)
    (limit : Option Nat) (th : ChatThread)
    (hnone : get_chat_thread s uid tid = none)
    (hsome : get_chat_thread s' uid tid = some th)
    (hempty : th.messages = []) :
    get_chat_messages s uid tid limit = [] ∧
    get_chat_messages s' uid tid limit = get_chat_messages s uid tid limit := by
  have h1 : get_chat_messages s uid tid limit = [] := by
    unfold get_chat_messages
    rw [hnone]
  refine ⟨h1, ?_⟩
  rw [h1]
  unfold get_chat_messages
  rw [hsome]
  dsimp only
  rw [hempty]
  cases limit with
  | none => rfl
  | some l => by_cases hl : l = 0 <;> simp [sortByCreated, hl]

/-- Witness for C10 at a concrete empty store, a concrete store holding an
    empty thread, and the key (7, "t1"). -/
theorem c10_witness :
    get_chat_messages emptyStore 7 "t1" none = [] ∧
    get_chat_messages sampleStore 7 "t1" none =
      get_chat_messages emptyStore 7 "t1" none :=
  c10_listing_not_found_empty emptyStore sampleStore 7 "t1" none sampleThread
    (by decide) (by decide) (by decide)

/-- Claim C9: for every list of turns whose roles are drawn from system,
    user and assistant, the flattened prompt built by the provider equals
    exactly the role-labelled turns in list order joined by blank lines. -/
theorem c9_flattened_prompt_exact (ts : List Turn)
    (h : ∀ t ∈ ts, t.role = "system" ∨ t.role = "user" ∨ t.role = "assistant") :
    flattened_prompt ts = String.intercalate "\n\n" (ts.map renderTurnSpec) := by
  unfold flattened_prompt
  congr 1
  induction ts with
  | nil => rfl
  | cons t ts ih =>
    have ht := h t (List.mem_cons_self t ts)
    have hrest : ∀ u ∈ ts, u.role = "system" ∨ u.role = "user" ∨ u.role = "assistant" :=
      fun u hu => h u (List.mem_cons_of_mem t hu)
    rcases ht with h1 | h1 | h1 <;>
      simp [prompt_parts, renderTurnSpec, h1, ih hrest]

/-- Witness for C9 on a concrete three-turn conversation. -/
theorem c9_witness :
    flattened_prompt [⟨"system", "be kind"⟩, ⟨"user", "hi"⟩, ⟨"assistant", "hello"⟩] =
      String.intercalate "\n\n"
        ([⟨"system", "be kind"⟩, ⟨"user", "hi"⟩,
          (⟨"assistant", "hello"⟩ : Turn)].map renderTurnSpec) :=
  c9_flattened_prompt_exact _ (by decide)

/-- Counterexample for C6: when the generated text carries trailing
    whitespace, the concatenation of the streamed fragments differs from the
    non-streaming result, because chat_completion strips the text and the
    streaming path does not. -/
theorem c6_counterexample :
    streamedText ⟨["4. "]⟩ ≠ batchText ⟨["4. "]⟩ := by decide

/-- Claim C6 as amended: for the same backend behaviour, the non-streaming
    completion returns exactly the whitespace-trimmed concatenation of the
    fragments emitted by the streaming completion; the two coincide
    precisely up to leading/trailing whitespace of the full text. -/
theorem c6_amended_batch_is_trimmed_stream (b : BackendBehavior) :
    batchText b = pyStrip (streamedText b) := by
  rw [streamedText_eq_concat]
  rfl

/-- Counterexample for C8: when both Ollama endpoints return a syntactically
    valid but content-free result, the completion returns the empty string as
    a success instead of failing with an EmptyResponse error. -/
theorem c8_counterexample :
    ollama_chat (.ok (some "")) (.ok (some "")) "llama2" = .ok "" := rfl

/-- Claim C8 as amended: a content-free /api/generate result is not accepted
    directly but triggers the /api/chat fallback, whose stripped content is
    then returned as a successful completion even when it is itself empty;
    the Ollama completion path raises no empty-response error. -/
theorem c8_amended_empty_falls_back (g c : Option String) (m : String)
    (hg : pyStrip (g.getD "") = "") :
    ollama_chat (.ok g) (.ok c) m = .ok (pyStrip (c.getD "")) := by
  simp only [ollama_chat]
  rw [hg]
  simp

/-- Witness for the amended C8: an empty generate result with a nonempty
    chat fallback yields the fallback text. -/
theorem c8_witness :
    ollama_chat (.ok (some "")) (.ok (some " hi ")) "llama2" =
      .ok (pyStrip ((some " hi ").getD "")) :=
  c8_amended_empty_falls_back (some "") (some " hi ") "llama2" (by decide)

/-- Counterexample for C7: after a successful Message write at time 1
    followed by a successful title update at time 2, the thread updated_at
    is 2 while the most recent successful Message write happened at 1, so
    updated_at does not always equal the last Message-write timestamp. -/
theorem c7_counterexample :
    (threadMessages storeAfterTitle 7 "t1").map ChatMessage.created_at = [1] ∧
    (get_chat_thread storeAfterTitle 7 "t1").map ChatThread.updated_at = some 2 := by
  decide

/-- Claim C7 as amended: a successful Message write sets the thread
    updated_at to the write time, which equals the new message created_at
    (so after a successful turn it equals the assistant message creation
    time, and reads never change it); but a title update also sets
    updated_at, so in general it tracks the most recent successful mutating
    write, not only Message writes. -/
theorem c7_amended_message_write_sets_updated_at (s : Store) (uid : Nat)
    (tid : String) (th : ChatThread) (role content : String)
    (md : Option Metadata) (now : Nat)
    (h : get_chat_thread s uid tid = some th) :
    ∃ m st', create_chat_message s uid tid role content md now = some (m, st') ∧
      m.created_at = now ∧
      (get_chat_thread st' uid tid).map ChatThread.updated_at = some now := by
  have hc := create_chat_message_eq s uid tid th role content md now h
  refine ⟨_, _, hc, rfl, ?_⟩
  obtain ⟨hm, hget⟩ :=
    get_chat_thread_after_create s uid tid th role content md now _ _ h hc
  rw [hget]
  rfl

/-- Witness for the amended C7 on the sample store at time 5. -/
theorem c7_witness :
    ∃ m st', create_chat_message sampleStore 7 "t1" "assistant" "hello"
        (some []) 5 = some (m, st') ∧
      m.created_at = 5 ∧
      (get_chat_thread st' 7 "t1").map ChatThread.updated_at = some 5 :=
  c7_amended_message_write_sets_updated_at sampleStore 7 "t1" sampleThread
    "assistant" "hello" (some []) 5 (by decide)

/-- Claim C2: once streaming has begun, the event stream delivered by
    generate_response consists of zero or more non-terminal fragment records
    followed by exactly one terminal record (done or error) with no record
    after it, on every path, including backend failure and persistence
    failure in either save block. -/
theorem c2_exactly_one_terminal (uid : Nat) (tid : String)
    (frags : List String) (err : Option String) (st : Store)
    (sb : SaveBehavior) (now : Nat) :
    ∃ cs t, (generate_response uid tid frags err st sb now).1 =
        List.map Event.chunk cs ++ [t] ∧ isTerminal t = true := by
  rcases err with _ | e
  · by_cases hf : concatFrags frags = ""
    · exact ⟨frags, .done false, by simp [generate_response, hf], rfl⟩
    · by_cases hs : sb.successRaises
      · exact ⟨frags, .done false, by simp [generate_response, hf, hs], rfl⟩
      · rcases hc : create_chat_message st uid tid "assistant" (concatFrags frags)
            (some []) now with _ | ⟨m, st'⟩
        · exact ⟨frags, .done false, by simp [generate_response, hf, hs, hc], rfl⟩
        · exact ⟨frags, .done true, by simp [generate_response, hf, hs, hc], rfl⟩
  · by_cases hf : concatFrags frags = ""
    · exact ⟨frags, .streamError e, by simp [generate_response, hf], rfl⟩
    · by_cases hs : sb.errorRaises
      · exact ⟨frags, .streamError e, by simp [generate_response, hf, hs], rfl⟩
      · rcases hc : create_chat_message st uid tid "assistant" (concatFrags frags)
            (some interruptedMetadata) now with _ | ⟨m, st'⟩
        · exact ⟨frags, .streamError e, by simp [generate_response, hf, hs, hc], rfl⟩
        · exact ⟨frags, .streamError e, by simp [generate_response, hf, hs, hc], rfl⟩

/-- Claim C4: on a turn that reaches end-of-stream with accumulated content,
    successful persistence of the assistant Message yields a final done
    event with saved true; failed persistence (a raising save block, or a
    thread that vanished) yields a final done event with saved false on an
    unchanged store, and in neither case is an error event emitted. -/
theorem c4_done_saved_flag (uid : Nat) (tid : String) (frags : List String)
    (st : Store) (sb : SaveBehavior) (now : Nat)
    (hf : concatFrags frags ≠ "") :
    (∀ m st', sb.successRaises = false →
      create_chat_message st uid tid "assistant" (concatFrags frags)
        (some []) now = some (m, st') →
      generate_response uid tid frags none st sb now =
        (frags.map Event.chunk ++ [Event.done true], st')) ∧
    (sb.successRaises = true →
      generate_response uid tid frags none st sb now =
        (frags.map Event.chunk ++ [Event.done false], st)) ∧
    (sb.successRaises = false →
      create_chat_message st uid tid "assistant" (concatFrags frags)
        (some []) now = none →
      generate_response uid tid frags none st sb now =
        (frags.map Event.chunk ++ [Event.done false], st)) := by
  refine ⟨?_, ?_, ?_⟩
  · intro m st' hs hc
    simp [generate_response, hf, hs, hc]
  · intro hs
    simp [generate_response, hf, hs]
  · intro hs hc
    simp [generate_response, hf, hs, hc]

/-- Witness for C4 on the sample store with fragments "4" and ".". -/
theorem c4_witness :
    (∀ m st', calmSaves.successRaises = false →
      create_chat_message sampleStore 7 "t1" "assistant" (concatFrags ["4", "."])
        (some []) 3 = some (m, st') →
      generate_response 7 "t1" ["4", "."] none sampleStore calmSaves 3 =
        (["4", "."].map Event.chunk ++ [Event.done true], st')) ∧
    (calmSaves.successRaises = true →
      generate_response 7 "t1" ["4", "."] none sampleStore calmSaves 3 =
        (["4", "."].map Event.chunk ++ [Event.done false], sampleStore)) ∧
    (calmSaves.successRaises = false →
      create_chat_message sampleStore 7 "t1" "assistant" (concatFrags ["4", "."])
        (some []) 3 = none →
      generate_response 7 "t1" ["4", "."] none sampleStore calmSaves 3 =
        (["4", "."].map Event.chunk ++ [Event.done false], sampleStore)) :=
  c4_done_saved_flag 7 "t1" ["4", "."] sampleStore calmSaves 3 (by decide)

/-- Claim C5: when the backend stream fails before yielding any fragment,
    the caller receives a single error event and the store gains exactly one
    message, the user turn: no assistant Message is written. -/
theorem c5_prefail_no_assistant (st : Store) (uid : Nat) (tid : String)
    (content : String) (t : Transport) (sb : SaveBehavior)
    (nowUser nowAsst : Nat) (th : ChatThread) (e : String)
    (hth : get_chat_thread st uid tid = some th)
    (hout : streamOutcome t = ([], some e)) :
    ∃ st1, stream_chat_response st uid tid content t sb nowUser nowAsst =
        .streamed [Event.streamError e] st1 ∧
      threadMessages st1 uid tid = threadMessages st uid tid ++
        [⟨"user", content, [], nowUser⟩] := by
  have hc := create_chat_message_eq st uid tid th "user" content (some []) nowUser hth
  refine ⟨_, ?_, threadMessages_after_create st uid tid th "user" content
    (some []) nowUser _ _ hth hc⟩
  unfold stream_chat_response
  rw [hth]
  dsimp only
  rw [hc]
  dsimp only
  rw [hout]
  simp [generate_response, concatFrags]

/-- Witness for C5: a transport that fails with no lines delivered. -/
theorem c5_witness :
    ∃ st1, stream_chat_response sampleStore 7 "t1" "hi" failTransport calmSaves
        1 2 = .streamed [Event.streamError "refused"] st1 ∧
      threadMessages st1 7 "t1" = threadMessages sampleStore 7 "t1" ++
        [⟨"user", "hi", [], 1⟩] :=
  c5_prefail_no_assistant sampleStore 7 "t1" "hi" failTransport calmSaves 1 2
    sampleThread "refused" (by decide) (by decide)

/-- Claim C1: when the backend stream raises after delivering at least one
    fragment, the relay persists an assistant Message whose content is the
    in-order concatenation of the delivered fragments, carrying the
    interruption metadata, and then pushes the terminal error event.
    Fragments yielded by stream_chat are never empty, so the accumulated
    text is nonempty and the partial-save branch runs; the save itself is
    assumed not to raise. -/
theorem c1_partial_persisted (st : Store) (uid : Nat) (tid : String)
    (t : Transport) (sb : SaveBehavior) (now : Nat) (th : ChatThread)
    (frags : List String) (e : String)
    (hout : streamOutcome t = (frags, some e))
    (hne : frags ≠ [])
    (hth : get_chat_thread st uid tid = some th)
    (hsb : sb.errorRaises = false) :
    ∃ st', generate_response uid tid frags (some e) st sb now =
        (frags.map Event.chunk ++ [Event.streamError e], st') ∧
      threadMessages st' uid tid = threadMessages st uid tid ++
        [⟨"assistant", concatFrags frags, interruptedMetadata, now⟩] := by
  have hfr : frags = stream_chat t.lines := by
    have h1 := congrArg Prod.fst hout
    simpa [streamOutcome] using h1.symm
  have hful : concatFrags frags ≠ "" := by
    obtain ⟨f, rest, rfl⟩ : ∃ f rest, frags = f :: rest := by
      cases frags with
      | nil => exact absurd rfl hne
      | cons a b => exact ⟨a, b, rfl⟩
    have hmem : f ∈ stream_chat t.lines := by
      rw [← hfr]
      exact List.mem_cons_self f rest
    exact concatFrags_ne_empty f rest (stream_chat_ne_empty t.lines f hmem)
  have hc := create_chat_message_eq st uid tid th "assistant" (concatFrags frags)
    (some interruptedMetadata) now hth
  refine ⟨_, ?_, threadMessages_after_create st uid tid th "assistant"
    (concatFrags frags) (some interruptedMetadata) now _ _ hth hc⟩
  simp [generate_response, hful, hsb, hc]

/-- Witness for C1: a transport that yields the fragment "4" and then drops
    the connection. -/
theorem c1_witness :
    ∃ st', generate_response 7 "t1" ["4"] (some "boom") sampleStore calmSaves 2 =
        (["4"].map Event.chunk ++ [Event.streamError "boom"], st') ∧
      threadMessages st' 7 "t1" = threadMessages sampleStore 7 "t1" ++
        [⟨"assistant", concatFrags ["4"], interruptedMetadata, 2⟩] :=
  c1_partial_persisted sampleStore 7 "t1" dropTransport calmSaves 2
    sampleThread ["4"] "boom" (by decide) (by decide) (by decide) (by decide)

/-- Every step of the fragment loop is a fragment receive or a fragment
    push. -/
theorem mem_fragmentActions (fs : List String) (a : Action)
    (h : a ∈ fragmentActions fs) :
    (∃ f, a = Action.recvFragment f) ∨
    (∃ f, a = Action.pushEvent (Event.chunk f)) := by
  induction fs with
  | nil => simp [fragmentActions] at h
  | cons f fs ih =>
    simp only [fragmentActions, List.mem_cons] at h
    rcases h with rfl | rfl | h
    · exact .inl ⟨f, rfl⟩
    · exact .inr ⟨f, rfl⟩
    · exact ih h

/-- Every step after the fragment loop is an assistant commit or the push of
    a terminal event. -/
theorem mem_tailActions (uid : Nat) (tid : String) (frags : List String)
    (err : Option String) (st1 : Store) (sb : SaveBehavior) (now : Nat)
    (a : Action) (h : a ∈ tailActions uid tid frags err st1 sb now) :
    (∃ c b, a = Action.commitAssistantMessage c b) ∨
    (∃ ev, a = Action.pushEvent ev ∧ isTerminal ev = true) := by
  unfold tailActions at h
  rcases err with _ | e <;> dsimp only at h <;>
    rcases List.mem_append.mp h with h1 | h1
  · split at h1
    · obtain rfl : a = Action.commitAssistantMessage (concatFrags frags) false := by
        simpa using h1
      exact .inl ⟨_, _, rfl⟩
    · simp at h1
  · obtain rfl : a = Action.pushEvent (Event.done _) := by simpa using h1
    exact .inr ⟨_, rfl, rfl⟩
  · split at h1
    · obtain rfl : a = Action.commitAssistantMessage (concatFrags frags) true := by
        simpa using h1
      exact .inl ⟨_, _, rfl⟩
    · simp at h1
  · obtain rfl : a = Action.pushEvent (Event.streamError e) := by simpa using h1
    exact .inr ⟨_, rfl, rfl⟩

/-- The shape of the turn trace when the thread exists: the three setup
    steps, then the fragment loop, then the save/terminal tail, for some
    store state after the user-turn write. -/
theorem turnTrace_shape (st : Store) (uid : Nat) (tid : String)
    (content : String) (t : Transport) (sb : SaveBehavior) (n1 n2 : Nat)
    (th : ChatThread) (hth : get_chat_thread st uid tid = some th) :
    ∃ st1, turnTrace st uid tid content t sb n1 n2 =
      Action.loadThread :: Action.commitUserMessage content ::
        Action.openStream ::
        (fragmentActions (streamOutcome t).1 ++
         tailActions uid tid (streamOutcome t).1 (streamOutcome t).2 st1 sb n2) := by
  have hc := create_chat_message_eq st uid tid th "user" content (some []) n1 hth
  unfold turnTrace
  rw [hth]
  dsimp only
  rw [hc]
  exact ⟨_, rfl⟩

/-- In a trace whose tail holds neither a user commit nor a stream opening,
    the user commit at index 1 precedes the stream opening at index 2. -/
theorem userCommit_before_openStream (content : String) (l : List Action)
    (hl : ∀ a ∈ l, (∀ c, a ≠ Action.commitUserMessage c) ∧ a ≠ Action.openStream) :
    ∀ i j : Nat,
      (Action.loadThread :: Action.commitUserMessage content ::
        Action.openStream :: l)[i]? = some (Action.commitUserMessage content) →
      (Action.loadThread :: Action.commitUserMessage content ::
        Action.openStream :: l)[j]? = some Action.openStream →
      i < j := by
  intro i j hi hj
  have hi1 : i = 1 := by
    rcases i with _ | (_ | (_ | i))
    · simp at hi
    · rfl
    · simp at hi
    · rw [List.getElem?_cons_succ, List.getElem?_cons_succ,
        List.getElem?_cons_succ] at hi
      exact absurd rfl ((hl _ (List.getElem?_mem hi)).1 content)
  have hj2 : j = 2 := by
    rcases j with _ | (_ | (_ | j))
    · simp at hj
    · simp at hj
    · rfl
    · rw [List.getElem?_cons_succ, List.getElem?_cons_succ,
        List.getElem?_cons_succ] at hj
      exact absurd rfl (hl _ (List.getElem?_mem hj)).2
  omega

/-- In a trace split into a prefix with no assistant commit and a suffix
    with no fragment receive, every assistant commit comes after every
    fragment receive. -/
theorem commitAssistant_after_recv (pre post : List Action)
    (hpre : ∀ a ∈ pre, ∀ c b, a ≠ Action.commitAssistantMessage c b)
    (hpost : ∀ a ∈ post, ∀ f, a ≠ Action.recvFragment f) :
    ∀ (i j : Nat) (c : String) (b : Bool) (f : String),
      (pre ++ post)[i]? = some (Action.commitAssistantMessage c b) →
      (pre ++ post)[j]? = some (Action.recvFragment f) → j < i := by
  intro i j c b f hi hj
  have hi' : pre.length ≤ i := by
    by_contra hlt
    push_neg at hlt
    rw [List.getElem?_append_left hlt] at hi
    exact hpre _ (List.getElem?_mem hi) c b rfl
  have hj' : j < pre.length := by
    by_contra hge
    push_neg at hge
    rw [List.getElem?_append_right hge] at hj
    exact hpost _ (List.getElem?_mem hj) f rfl
  omega

/-- The fragment loop receives exactly the fragment list, in order. -/
theorem filterMap_recv_fragmentActions (fs : List String) :
    (fragmentActions fs).filterMap recvContent = fs := by
  induction fs with
  | nil => rfl
  | cons f fs ih => simp [fragmentActions, recvContent, ih]

/-- The fragment loop pushes exactly the fragment list, in order. -/
theorem filterMap_push_fragmentActions (fs : List String) :
    (fragmentActions fs).filterMap pushedChunk = fs := by
  induction fs with
  | nil => rfl
  | cons f fs ih => simp [fragmentActions, pushedChunk, ih]

/-- The tail of the trace receives no fragment. -/
theorem filterMap_recv_tailActions (uid : Nat) (tid : String)
    (frags : List String) (err : Option String) (st1 : Store)
    (sb : SaveBehavior) (now : Nat) :
    (tailActions uid tid frags err st1 sb now).filterMap recvContent = [] := by
  rw [List.filterMap_eq_nil_iff]
  intro a ha
  rcases mem_tailActions uid tid frags err st1 sb now a ha with
    ⟨c, b, rfl⟩ | ⟨ev, rfl, hterm⟩
  · rfl
  · rfl

/-- The tail of the trace pushes no fragment record. -/
theorem filterMap_push_tailActions (uid : Nat) (tid : String)
    (frags : List String) (err : Option String) (st1 : Store)
    (sb : SaveBehavior) (now : Nat) :
    (tailActions uid tid frags err st1 sb now).filterMap pushedChunk = [] := by
  rw [List.filterMap_eq_nil_iff]
  intro a ha
  rcases mem_tailActions uid tid frags err st1 sb now a ha with
    ⟨c, b, rfl⟩ | ⟨ev, rfl, hterm⟩
  · rfl
  · cases ev with
    | chunk s => simp [isTerminal] at hterm
    | done s => rfl
    | streamError s => rfl

/-- Claim C3: in every streaming turn, the committed user-message write
    strictly precedes the opening of the backend stream; the fragments
    pushed to the caller are exactly the fragments received from the
    backend, in arrival order, with no reordering or batching; and every
    assistant-message commit (complete or partial) strictly follows every
    fragment receipt. -/
theorem c3_ordering (st : Store) (uid : Nat) (tid : String) (content : String)
    (t : Transport) (sb : SaveBehavior) (n1 n2 : Nat) (th : ChatThread)
    (hth : get_chat_thread st uid tid = some th) :
    (∀ i j : Nat, (turnTrace st uid tid content t sb n1 n2)[i]? =
          some (Action.commitUserMessage content) →
        (turnTrace st uid tid content t sb n1 n2)[j]? = some Action.openStream →
        i < j) ∧
    (turnTrace st uid tid content t sb n1 n2).filterMap recvContent =
      (streamOutcome t).1 ∧
    (turnTrace st uid tid content t sb n1 n2).filterMap pushedChunk =
      (streamOutcome t).1 ∧
    (∀ (i j : Nat) (c : String) (b : Bool) (f : String),
        (turnTrace st uid tid content t sb n1 n2)[i]? =
          some (Action.commitAssistantMessage c b) →
        (turnTrace st uid tid content t sb n1 n2)[j]? =
          some (Action.recvFragment f) →
        j < i) := by
  obtain ⟨st1, htr⟩ := turnTrace_shape st uid tid content t sb n1 n2 th hth
  rw [htr]
  refine ⟨?_, ?_, ?_, ?_⟩
  · apply userCommit_before_openStream
    intro a ha
    rcases List.mem_append.mp ha with h1 | h1
    · rcases mem_fragmentActions _ a h1 with ⟨f, rfl⟩ | ⟨f, rfl⟩ <;>
        exact ⟨fun c => by simp, by simp⟩
    · rcases mem_tailActions _ _ _ _ _ _ _ a h1 with ⟨c, b, rfl⟩ | ⟨ev, rfl, _⟩ <;>
        exact ⟨fun c => by simp, by simp⟩
  · simp [List.filterMap_cons, recvContent, List.filterMap_append,
      filterMap_recv_fragmentActions, filterMap_recv_tailActions]
  · simp [List.filterMap_cons, pushedChunk, List.filterMap_append,
      filterMap_push_fragmentActions, filterMap_push_tailActions]
  · have hsplit :
        Action.loadThread :: Action.commitUserMessage content ::
          Action.openStream ::
          (fragmentActions (streamOutcome t).1 ++
           tailActions uid tid (streamOutcome t).1 (streamOutcome t).2 st1 sb n2) =
        (Action.loadThread :: Action.commitUserMessage content ::
          Action.openStream :: fragmentActions (streamOutcome t).1) ++
          tailActions uid tid (streamOutcome t).1 (streamOutcome t).2 st1 sb n2 := by
      simp
    rw [hsplit]
    apply commitAssistant_after_recv
    · intro a ha c b
      rcases List.mem_cons.mp ha with rfl | ha
      · simp
      rcases List.mem_cons.mp ha with rfl | ha
      · simp
      rcases List.mem_cons.mp ha with rfl | ha
      · simp
      rcases mem_fragmentActions _ a ha with ⟨f, rfl⟩ | ⟨f, rfl⟩ <;> simp
    · intro a ha f
      rcases mem_tailActions _ _ _ _ _ _ _ a ha with ⟨c, b, rfl⟩ | ⟨ev, rfl, _⟩ <;>
        simp

/-- Witness for C3: a concrete turn on the sample store with a two-fragment
    stream. -/
theorem c3_witness :
    (∀ i j : Nat, (turnTrace sampleStore 7 "t1" "hi" okTransport calmSaves 1 2)[i]? =
          some (Action.commitUserMessage "hi") →
        (turnTrace sampleStore 7 "t1" "hi" okTransport calmSaves 1 2)[j]? =
          some Action.openStream →
        i < j) ∧
    (turnTrace sampleStore 7 "t1" "hi" okTransport calmSaves 1 2).filterMap
        recvContent = (streamOutcome okTransport).1 ∧
    (turnTrace sampleStore 7 "t1" "hi" okTransport calmSaves 1 2).filterMap
        pushedChunk = (streamOutcome okTransport).1 ∧
    (∀ (i j : Nat) (c : String) (b : Bool) (f : String),
        (turnTrace sampleStore 7 "t1" "hi" okTransport calmSaves 1 2)[i]? =
          some (Action.commitAssistantMessage c b) →
        (turnTrace sampleStore 7 "t1" "hi" okTransport calmSaves 1 2)[j]? =
          some (Action.recvFragment f) →
        j < i) :=
  c3_ordering sampleStore 7 "t1" "hi" okTransport calmSaves 1 2 sampleThread
    (by decide)

end Claims

end PrimeNexus
